import Mathlib

/-!
Verification of the naming, polling and persistence conventions of the
aws-transcribe-app command-line utility (`src/cli.py`, `src/transcribe.py`).

The Python code is shallowly embedded: each helper becomes an executable
Lean definition over `String` / `List Char`, side effects (network calls,
file writes, sleeps) become explicit traces or counters, and the current
Unix timestamp becomes an explicit `Nat` parameter.  Character
classification (`str.isalnum`, `str.lower`) is modelled on the ASCII
range, which covers every input the claims mention.
-/

/-! ## Python path primitives

`pathlib.Path.name / .suffix / .stem` and the `os.path` helpers used by
`cli.py`, embedded faithfully (last-dot rule, leading-dot rule, and the
`os.path.splitext` all-dots rule included). -/

/-- Split a character list on a separator character, Python `str.split` style:
the result always has at least one (possibly empty) chunk. -/
def splitOnChar (sep : Char) : List Char → List (List Char)
  | [] => [[]]
  | c :: rest =>
    match splitOnChar sep rest with
    | [] => [[c]]
    | h :: t => if c = sep then [] :: h :: t else (c :: h) :: t

/-- Index (from the front) of the last occurrence of `c`, Python `str.rfind`. -/
def rfindCh (c : Char) : List Char → Option Nat
  | [] => none
  | x :: xs =>
    match rfindCh c xs with
    | some i => some (i + 1)
    | none => if x = c then some 0 else none

/-- The components of a path as `pathlib` parses them: split on `/`,
dropping empty components and bare `.` components. -/
def pathComponents (s : String) : List (List Char) :=
  (splitOnChar '/' s.data).filter (fun c => c ≠ [] ∧ c ≠ ['.'])

/-- `pathlib.Path(s).name` as a character list: the final component. -/
def pathNameChars (s : String) : List Char :=
  (pathComponents s).getLast?.getD []

/-- `pathlib.Path(s).name`. -/
def pathName (s : String) : String :=
  String.mk (pathNameChars s)

/-- `pathlib.Path(s).suffix`: `name[i:]` for `i` the last dot of the final
component, provided `0 < i < len(name) - 1`; otherwise the empty string. -/
def pathSuffix (s : String) : String :=
  let n := pathNameChars s
  match rfindCh '.' n with
  | some i => if 0 < i ∧ i < n.length - 1 then String.mk (n.drop i) else ""
  | none => ""

/-- `pathlib.Path(s).stem`: the final component with `pathSuffix` removed. -/
def pathStem (s : String) : String :=
  let n := pathNameChars s
  match rfindCh '.' n with
  | some i => if 0 < i ∧ i < n.length - 1 then String.mk (n.take i) else String.mk n
  | none => String.mk n

/-- `os.path.join(a, b)` (POSIX): `b` if `b` is absolute, otherwise `a`
and `b` glued with exactly one `/` unless `a` is empty or already ends
with `/`. -/
def osJoin (a b : String) : String :=
  if b.data.head? = some '/' then b
  else if a = "" ∨ a.data.getLast? = some '/' then a ++ b
  else a ++ "/" ++ b

/-- `os.path.basename(p)` (POSIX): everything after the last `/`. -/
def pyBasename (p : String) : String :=
  String.mk ((p.data.reverse.takeWhile (fun c => c ≠ '/')).reverse)

/-- `os.path.dirname(p)` (POSIX): everything up to the last `/`, with
trailing slashes stripped unless the head is all slashes. -/
def pyDirname (p : String) : String :=
  let cs := p.data
  let tailLen := (cs.reverse.takeWhile (fun c => c ≠ '/')).length
  let head := cs.take (cs.length - tailLen)
  if head ≠ [] ∧ head.any (fun c => c ≠ '/') then
    String.mk ((head.reverse.dropWhile (fun c => c = '/')).reverse)
  else
    String.mk head

/-- `os.path.splitext(p)` (POSIX): split at the last dot of the final
component, unless every character of the final component up to that dot
is itself a dot. -/
def pySplitext (p : String) : String × String :=
  let cs := p.data
  match rfindCh '.' cs with
  | none => (p, "")
  | some di =>
    let fi : Nat :=
      match rfindCh '/' cs with
      | none => 0
      | some si => si + 1
    if fi ≤ di then
      if ((cs.drop fi).take (di - fi)).any (fun c => c ≠ '.') then
        (String.mk (cs.take di), String.mk (cs.drop di))
      else (p, "")
    else (p, "")

/-! ## `cli.py`: object-key construction (`construct_object_key`) -/

/-- Embedding of `cli.py::construct_object_key`.  `custom_key` is the
optional `--key` value; Python's `if not custom_key` is falsy both for
`None` and for the empty string. -/
def construct_object_key (input_file : String) (custom_key : Option String) : String :=
  match custom_key with
  | none => pathName input_file
  | some k =>
    if k = "" then pathName input_file
    else if pathSuffix k = "" ∧ pathSuffix input_file ≠ "" then k ++ pathSuffix input_file
    else k

/-! ## Claims C6 and C10 -/

/-- C6: with no override (`None`, or the falsy empty string) the object key
is the input file's base name unchanged; a given (non-empty) override
without an extension gets the input file's extension appended when the
input has one; a given override that already has an extension is returned
unchanged. -/
theorem construct_object_key_spec (input k : String) :
    construct_object_key input none = pathName input
    ∧ construct_object_key input (some "") = pathName input
    ∧ (k ≠ "" → pathSuffix k = "" → pathSuffix input ≠ "" →
        construct_object_key input (some k) = k ++ pathSuffix input)
    ∧ (k ≠ "" → pathSuffix k ≠ "" →
        construct_object_key input (some k) = k) := by
  refine ⟨rfl, rfl, ?_, ?_⟩
  · intro hk hks his
    simp [construct_object_key, hk, hks, his]
  · intro hk hks
    simp [construct_object_key, hk, hks]

/-- Witness for C6 at the spec's own examples: override `custom` with input
`f.wav` yields `custom.wav`, override `custom.mp3` is kept, and no override
yields the base name `f.wav`. -/
theorem construct_object_key_spec_witness :
    construct_object_key "f.wav" (some "custom") = "custom.wav"
    ∧ construct_object_key "f.wav" (some "custom.mp3") = "custom.mp3"
    ∧ construct_object_key "f.wav" none = "f.wav" := by
  refine ⟨?_, ?_, ?_⟩
  · have h := (construct_object_key_spec "f.wav" "custom").2.2.1
      (by decide) (by decide) (by decide)
    rw [h]; decide
  · exact (construct_object_key_spec "f.wav" "custom.mp3").2.2.2
      (by decide) (by decide)
  · exact (construct_object_key_spec "f.wav" "custom").1

/-- C10: when the input path has no extension, a given (non-empty) override
is returned unchanged, whether or not the override has an extension: no
extension is invented. -/
theorem construct_object_key_no_input_ext (input k : String)
    (hk : k ≠ "") (hi : pathSuffix input = "") :
    construct_object_key input (some k) = k := by
  simp [construct_object_key, hk, hi]

/-- Witness for C10: input `audiofile` (no extension) with override
`custom` (also no extension) yields `custom` unchanged. -/
theorem construct_object_key_no_input_ext_witness :
    construct_object_key "audiofile" (some "custom") = "custom" :=
  construct_object_key_no_input_ext "audiofile" "custom" (by decide) (by decide)

/-! ## Media-format derivation

`cli.py::start_transcription_job` computes
`Path(object_key).suffix.lstrip('.').lower()` and maps `m4a` to `mp4`;
`transcribe.py::TranscribeManager.start_transcription_job` instead passes
`file_uri.split('.')[-1].lower()` with no such mapping. -/

/-- The media format `cli.py::start_transcription_job` passes to the
transcription backend (lines 99–102). -/
def cli_media_format (object_key : String) : String :=
  let mf := String.mk (((pathSuffix object_key).data.dropWhile (fun c => c = '.')).map Char.toLower)
  if mf = "m4a" then "mp4" else mf

/-- The media format `transcribe.py::TranscribeManager.start_transcription_job`
passes to the transcription backend (line 35): the lower-cased final
dot-separated segment of the whole file URI, with no `m4a` mapping. -/
def transcribeManager_media_format (file_uri : String) : String :=
  String.mk (((splitOnChar '.' file_uri.data).getLast?.getD []).map Char.toLower)

/-- Spec-side reading of "the key's file extension lower-cased": the
`pathlib` suffix without its leading dot, lower-cased. -/
def extensionLower (object_key : String) : String :=
  String.mk (((pathSuffix object_key).data.drop 1).map Char.toLower)

theorem rfindCh_none_notMem {c : Char} : ∀ {l : List Char}, rfindCh c l = none → c ∉ l := by
  intro l
  induction l with
  | nil => intro _ h; cases h
  | cons x xs ih =>
    intro h
    unfold rfindCh at h
    rcases hx : rfindCh c xs with _ | j
    · rw [hx] at h
      by_cases hxc : x = c
      · simp [hxc] at h
      · simp only [List.mem_cons]
        rintro (h1 | h2)
        · exact hxc h1.symm
        · exact ih hx h2
    · rw [hx] at h
      simp at h

theorem rfindCh_drop {c : Char} : ∀ {l : List Char} {i : Nat},
    rfindCh c l = some i → ∃ rest, l.drop i = c :: rest ∧ c ∉ rest := by
  intro l
  induction l with
  | nil => intro i h; simp [rfindCh] at h
  | cons x xs ih =>
    intro i h
    unfold rfindCh at h
    rcases hx : rfindCh c xs with _ | j
    · rw [hx] at h
      by_cases hxc : x = c
      · simp only [hxc, if_pos rfl] at h
        cases h
        exact ⟨xs, by simp [hxc], rfindCh_none_notMem hx⟩
      · simp [hxc] at h
    · rw [hx] at h
      cases h
      obtain ⟨rest, hd, hm⟩ := ih hx
      exact ⟨rest, by simpa using hd, hm⟩

/-- The `pathlib` suffix is empty, or a dot followed by a dot-free tail. -/
theorem pathSuffix_shape (s : String) :
    pathSuffix s = "" ∨
    ∃ rest : List Char, (pathSuffix s).data = '.' :: rest ∧ '.' ∉ rest := by
  have hdef : pathSuffix s =
      match rfindCh '.' (pathNameChars s) with
      | some i =>
        if 0 < i ∧ i < (pathNameChars s).length - 1 then
          String.mk ((pathNameChars s).drop i)
        else ""
      | none => "" := rfl
  rcases h : rfindCh '.' (pathNameChars s) with _ | i
  · left; rw [hdef, h]
  · by_cases hc : 0 < i ∧ i < (pathNameChars s).length - 1
    · right
      obtain ⟨rest2, hd, hm⟩ := rfindCh_drop h
      refine ⟨rest2, ?_, hm⟩
      rw [hdef, h]
      simpa [hc] using hd
    · left
      rw [hdef, h]
      simp [hc]

theorem dropWhile_eq_self_of_notMem {c : Char} :
    ∀ {l : List Char}, c ∉ l → l.dropWhile (fun x => x = c) = l := by
  intro l
  induction l with
  | nil => intro _; rfl
  | cons x xs _ =>
    intro h
    have hx : x ≠ c := fun he => h (he ▸ List.mem_cons_self x xs)
    simp [List.dropWhile_cons, hx]

/-- Stripping leading dots from a `pathlib` suffix is the same as dropping
its single leading dot. -/
theorem suffix_dropWhile_eq_drop_one (s : String) :
    (pathSuffix s).data.dropWhile (fun c => c = '.') = (pathSuffix s).data.drop 1 := by
  rcases pathSuffix_shape s with h | ⟨rest, hd, hm⟩
  · rw [h]; rfl
  · rw [hd]
    simp only [List.dropWhile_cons, if_pos rfl, List.drop_succ_cons, List.drop_zero]
    exact dropWhile_eq_self_of_notMem hm

/-- C2 (amended): the media format the CLI passes to the start-job call is
the key's file extension lower-cased, with the single special case
`m4a → mp4`; in particular `clip.M4A ↦ mp4` and `clip.wav ↦ wav`.
(The unused `TranscribeManager` start-job call applies no such mapping,
see `transcribeManager_media_format_counterexample`.) -/
theorem cli_media_format_spec (key : String) :
    cli_media_format key = (if extensionLower key = "m4a" then "mp4" else extensionLower key)
    ∧ cli_media_format "clip.M4A" = "mp4"
    ∧ cli_media_format "clip.wav" = "wav" := by
  refine ⟨?_, by decide, by decide⟩
  unfold cli_media_format extensionLower
  rw [suffix_dropWhile_eq_drop_one]

/-- C2 (counterexample): for the uploaded object `clip.M4A` the media
format the `TranscribeManager` start-job call passes is `m4a`, not the
`mp4` the claim requires for an `m4a` extension. -/
theorem transcribeManager_media_format_counterexample :
    transcribeManager_media_format "s3://transcribe-audio-files/clip.M4A" = "m4a"
    ∧ transcribeManager_media_format "s3://transcribe-audio-files/clip.M4A" ≠ "mp4" := by
  decide

/-! ## Transcript assembly

`cli.py::save_transcript` concatenates every fragment of the manifest's
`results.transcripts` list, each followed by `"\n"`;
`transcribe.py::TranscribeManager.get_transcript` returns only
`transcripts[0]`. -/

/-- The result manifest: the `results.transcripts` fragments, each already
projected to its `transcript` string. -/
structure Manifest where
  transcripts : List String
deriving DecidableEq

/-- The text `cli.py::save_transcript` builds (lines 138–140). -/
def save_transcript_text (m : Manifest) : String :=
  m.transcripts.foldl (fun acc t => acc ++ t ++ "\n") ""

/-- The outcome of `TranscribeManager.get_transcript` (lines 51–64):
`ok (some _)` with fragment `[0]` when the job is completed and the list
is non-empty, `ok none` (Python `return None`) when the job is not
completed, and `error` when the `[0]` access raises an `IndexError` that
the handler re-raises as
`"Failed to get transcript: list index out of range"`. -/
def transcribeManager_get_transcript (status : String) (m : Manifest) :
    Except String (Option String) :=
  if status = "COMPLETED" then
    match m.transcripts.head? with
    | some t => .ok (some t)
    | none => .error "Failed to get transcript: list index out of range"
  else .ok none

/-- C3 (amended): the text `save_transcript` writes is the concatenation of
every fragment, each immediately followed by one newline, so manifest
fragments `hello`, `world` yield `"hello\nworld\n"`; the unused
`TranscribeManager.get_transcript` instead yields only the first fragment
(and raises on a completed job with no fragments). -/
theorem save_transcript_text_spec (frs : List String) :
    save_transcript_text ⟨frs⟩ = String.join (frs.map (fun t => t ++ "\n"))
    ∧ save_transcript_text ⟨["hello", "world"]⟩ = "hello\nworld\n"
    ∧ (∀ (t : String) (ts : List String),
        transcribeManager_get_transcript "COMPLETED" ⟨t :: ts⟩ = .ok (some t))
    ∧ transcribeManager_get_transcript "COMPLETED" ⟨[]⟩
        = .error "Failed to get transcript: list index out of range" := by
  refine ⟨?_, by decide, fun t ts => rfl, rfl⟩
  unfold save_transcript_text String.join
  rw [List.foldl_map]
  congr 1
  funext acc t
  exact String.append_assoc acc t "\n"

/-- C3 (counterexample): on the two-fragment manifest `hello`, `world` the
transcript text `TranscribeManager.get_transcript` produces is `"hello"`,
not the claimed concatenation `"hello\nworld\n"`. -/
theorem transcribeManager_get_transcript_counterexample :
    transcribeManager_get_transcript "COMPLETED" ⟨["hello", "world"]⟩ = .ok (some "hello")
    ∧ transcribeManager_get_transcript "COMPLETED" ⟨["hello", "world"]⟩
        ≠ .ok (some "hello\nworld\n") := by
  refine ⟨rfl, fun h => ?_⟩
  have h2 : (some "hello" : Option String) = some "hello\nworld\n" := Except.ok.inj h
  simp at h2

/-! ## Status polling (`cli.py::wait_for_transcription`)

The loop polls `get_transcription_job`, returns the full response on
`COMPLETED`, raises on `FAILED`/`ERROR`, and otherwise sleeps a fixed
5 seconds and re-polls.  The job is embedded as the stream of responses
successive polls return; sleeps are counted instead of performed. -/

/-- One `get_transcription_job` response: the fields of
`response['TranscriptionJob']` the program reads. -/
structure TResponse where
  status : String
  failureReason : Option String
  transcriptFileUri : Option String
deriving DecidableEq

/-- The fixed sleep between polls, `time.sleep(5)` at `cli.py:131`. -/
def pollIntervalSeconds : Nat := 5

/-- Outcome of running the polling loop against a finite response stream:
success with the returned response and the number of sleeps taken, the
raised failure message, or exhaustion of the stream (the real loop would
still be polling). -/
inductive PollResult where
  | completed (response : TResponse) (sleeps : Nat)
  | failed (message : String)
  | exhausted
deriving DecidableEq

/-- Embedding of `cli.py::wait_for_transcription` (lines 119–131). -/
def wait_for_transcription : List TResponse → PollResult
  | [] => .exhausted
  | r :: rs =>
    if r.status = "COMPLETED" then .completed r 0
    else if r.status = "FAILED" ∨ r.status = "ERROR" then
      .failed ("Transcription job failed: " ++ r.failureReason.getD "Unknown error")
    else
      match wait_for_transcription rs with
      | .completed r' n => .completed r' (n + 1)
      | .failed msg => .failed msg
      | .exhausted => .exhausted

/-- C4: on the status sequence `[IN_PROGRESS, IN_PROGRESS, COMPLETED]` the
loop returns the full final response after exactly two sleeps of the fixed
5-second interval, raising no failure. -/
theorem wait_for_transcription_completes (r1 r2 r3 : TResponse)
    (h1 : r1.status = "IN_PROGRESS") (h2 : r2.status = "IN_PROGRESS")
    (h3 : r3.status = "COMPLETED") :
    wait_for_transcription [r1, r2, r3] = .completed r3 2
    ∧ pollIntervalSeconds = 5 := by
  refine ⟨?_, rfl⟩
  simp [wait_for_transcription, h1, h2, h3]

/-- Witness for C4 on concrete responses. -/
theorem wait_for_transcription_completes_witness :
    wait_for_transcription
      [⟨"IN_PROGRESS", none, none⟩, ⟨"IN_PROGRESS", none, none⟩,
       ⟨"COMPLETED", none, some "https://example.org/manifest.json"⟩]
      = .completed ⟨"COMPLETED", none, some "https://example.org/manifest.json"⟩ 2 :=
  (wait_for_transcription_completes _ _ _ rfl rfl rfl).1

/-- C5: as soon as a poll reports `FAILED` or `ERROR` (after any number of
non-terminal polls), the loop raises a failure whose message is the static
prefix followed by the service-reported reason, or by `Unknown error` when
no reason is present; it never returns a response. -/
theorem wait_for_transcription_failure (rs rest : List TResponse) (r : TResponse)
    (hns : ∀ x ∈ rs, x.status ≠ "COMPLETED" ∧ x.status ≠ "FAILED" ∧ x.status ≠ "ERROR")
    (hr : r.status = "FAILED" ∨ r.status = "ERROR") :
    wait_for_transcription (rs ++ r :: rest)
      = .failed ("Transcription job failed: " ++ r.failureReason.getD "Unknown error") := by
  induction rs with
  | nil =>
    rcases hr with h | h <;> simp [wait_for_transcription, h]
  | cons x xs ih =>
    obtain ⟨hc, hf, he⟩ := hns x (List.mem_cons_self x xs)
    have ih' := ih (fun y hy => hns y (List.mem_cons_of_mem x hy))
    simp [wait_for_transcription, hc, hf, he, ih']

/-- Witness for C5: one `IN_PROGRESS` poll, then `FAILED` with reason
`Bad audio`; the raised message carries that exact reason. -/
theorem wait_for_transcription_failure_witness :
    wait_for_transcription
      [⟨"IN_PROGRESS", none, none⟩, ⟨"FAILED", some "Bad audio", none⟩]
      = .failed "Transcription job failed: Bad audio" := by
  have h := wait_for_transcription_failure [⟨"IN_PROGRESS", none, none⟩] []
      ⟨"FAILED", some "Bad audio", none⟩ (by decide) (Or.inl rfl)
  rw [List.singleton_append] at h
  rw [h]
  decide

/-! ## Job names (`cli.py::construct_job_name`)

`construct_job_name` takes the object key's stem, replaces every
non-alphanumeric character by `-`, and appends `-` plus `int(time.time())`
formatted in decimal.  The timestamp is an explicit `Nat` parameter; its
Python decimal formatting is embedded as `natDecimal`. -/

/-- Little-endian base-10 digits of `n`, with explicit fuel (any
`fuel ≥ n` is enough). -/
def toDigitsRev (fuel n : Nat) : List Nat :=
  match fuel with
  | 0 => []
  | f + 1 => if n = 0 then [] else n % 10 :: toDigitsRev f (n / 10)

/-- Python decimal formatting of a non-negative integer (`str(n)`). -/
def natDecimal (n : Nat) : String :=
  if n = 0 then "0" else String.mk (((toDigitsRev n n).map Nat.digitChar).reverse)

/-- Embedding of `cli.py::construct_job_name` (lines 87–93), with the
current Unix timestamp as an explicit parameter. -/
def construct_job_name (object_key : String) (timestamp : Nat) : String :=
  String.mk ((pathStem object_key).data.map (fun c => if c.isAlphanum then c else '-'))
    ++ "-" ++ natDecimal timestamp

theorem toDigitsRev_eq_digits : ∀ (fuel n : Nat), n ≤ fuel → toDigitsRev fuel n = Nat.digits 10 n := by
  intro fuel
  induction fuel with
  | zero =>
    intro n h
    have : n = 0 := Nat.le_zero.mp h
    subst this
    simp [toDigitsRev]
  | succ f ih =>
    intro n h
    by_cases hn : n = 0
    · subst hn; simp [toDigitsRev]
    · rw [Nat.digits_def' (by norm_num : (1:ℕ) < 10) (Nat.pos_of_ne_zero hn)]
      simp only [toDigitsRev, hn, if_neg, ite_false]
      congr 1
      apply ih
      have hlt : n / 10 < n := Nat.div_lt_self (Nat.pos_of_ne_zero hn) (by norm_num)
      omega

theorem digitChar_injOn : ∀ a < 10, ∀ b < 10, Nat.digitChar a = Nat.digitChar b → a = b := by
  decide

theorem digitChar_isDigit : ∀ d < 10, (Nat.digitChar d).isDigit = true := by
  decide

theorem map_digitChar_inj : ∀ (l1 l2 : List Nat), (∀ d ∈ l1, d < 10) → (∀ d ∈ l2, d < 10) →
    l1.map Nat.digitChar = l2.map Nat.digitChar → l1 = l2 := by
  intro l1
  induction l1 with
  | nil =>
    intro l2 _ _ h
    cases l2 with
    | nil => rfl
    | cons b bs => simp at h
  | cons a as ih =>
    intro l2 h1 h2 h
    cases l2 with
    | nil => simp at h
    | cons b bs =>
      simp only [List.map_cons, List.cons.injEq] at h
      have ha := h1 a (List.mem_cons_self _ _)
      have hb := h2 b (List.mem_cons_self _ _)
      have hab : a = b := digitChar_injOn a ha b hb h.1
      subst hab
      rw [ih bs (fun d hd => h1 d (List.mem_cons_of_mem _ hd))
        (fun d hd => h2 d (List.mem_cons_of_mem _ hd)) h.2]

theorem natDecimal_data (n : Nat) (hn : n ≠ 0) :
    (natDecimal n).data = ((Nat.digits 10 n).map Nat.digitChar).reverse := by
  unfold natDecimal
  rw [if_neg hn, toDigitsRev_eq_digits n n le_rfl]

theorem natDecimal_ne_empty (n : Nat) : natDecimal n ≠ "" := by
  by_cases hn : n = 0
  · subst hn; decide
  · intro h
    have hd : (natDecimal n).data = [] := by rw [h]
    rw [natDecimal_data n hn] at hd
    rw [List.reverse_eq_nil_iff, List.map_eq_nil_iff] at hd
    exact (Nat.digits_ne_nil_iff_ne_zero.mpr hn) hd

theorem natDecimal_all_digits (n : Nat) : ∀ c ∈ (natDecimal n).data, c.isDigit = true := by
  by_cases hn : n = 0
  · subst hn; decide
  · rw [natDecimal_data n hn]
    intro c hc
    rw [List.mem_reverse] at hc
    obtain ⟨d, hd, rfl⟩ := List.mem_map.mp hc
    exact digitChar_isDigit d (Nat.digits_lt_base (by norm_num) hd)

theorem natDecimal_eq_zero {n : Nat} (h : natDecimal n = "0") : n = 0 := by
  by_contra hn
  have hd : (natDecimal n).data = ['0'] := by rw [h]
  rw [natDecimal_data n hn] at hd
  have h2 : (Nat.digits 10 n).map Nat.digitChar = ['0'] := by
    have h3 := congrArg List.reverse hd
    simpa using h3
  rcases hds : Nat.digits 10 n with _ | ⟨d, ds⟩
  · exact (Nat.digits_ne_nil_iff_ne_zero.mpr hn) hds
  · rw [hds] at h2
    simp only [List.map_cons, List.cons.injEq] at h2
    obtain ⟨hdc, hmap⟩ := h2
    have hds0 : ds = [] := by simpa using hmap
    have hdlt : d < 10 := Nat.digits_lt_base (by norm_num) (hds ▸ List.mem_cons_self d ds)
    have hd0 : d = 0 := digitChar_injOn d hdlt 0 (by norm_num) (by rw [hdc]; rfl)
    subst hds0; subst hd0
    have h4 := congrArg (Nat.ofDigits 10) hds
    rw [Nat.ofDigits_digits] at h4
    simp [Nat.ofDigits] at h4
    exact hn h4

theorem natDecimal_inj {m n : Nat} (h : natDecimal m = natDecimal n) : m = n := by
  by_cases hm : m = 0 <;> by_cases hn : n = 0
  · rw [hm, hn]
  · exfalso
    rw [hm] at h
    exact hn (natDecimal_eq_zero (by rw [← h]; rfl))
  · exfalso
    rw [hn] at h
    exact hm (natDecimal_eq_zero (by rw [h]; rfl))
  · have hd := congrArg String.data h
    rw [natDecimal_data m hm, natDecimal_data n hn] at hd
    have h2 : (Nat.digits 10 m).map Nat.digitChar = (Nat.digits 10 n).map Nat.digitChar :=
      List.reverse_injective hd
    have h3 : Nat.digits 10 m = Nat.digits 10 n :=
      map_digitChar_inj _ _ (fun d hd' => Nat.digits_lt_base (by norm_num) hd')
        (fun d hd' => Nat.digits_lt_base (by norm_num) hd') h2
    exact Nat.digits.injective 10 h3

/-- C7: the job name is the key's stem with every non-alphanumeric
character replaced by `-`, then `-` and the decimal Unix timestamp; on
`speech.mp3` it matches the pattern `speech-<digits>`, and two calls on the
same key with different timestamps give different names. -/
theorem construct_job_name_spec (key : String) (t t1 t2 : Nat) (hne : t1 ≠ t2) :
    construct_job_name key t
      = String.mk ((pathStem key).data.map (fun c => if c.isAlphanum then c else '-'))
        ++ "-" ++ natDecimal t
    ∧ (∃ ds : String, construct_job_name "speech.mp3" t = "speech-" ++ ds
        ∧ ds ≠ "" ∧ ∀ c ∈ ds.data, c.isDigit = true)
    ∧ construct_job_name key t1 ≠ construct_job_name key t2 := by
  refine ⟨rfl, ⟨natDecimal t, ?_, natDecimal_ne_empty t, natDecimal_all_digits t⟩, ?_⟩
  · have h1 : (String.mk ((pathStem "speech.mp3").data.map
        (fun c => if c.isAlphanum then c else '-')) ++ "-" : String) = "speech-" := by decide
    exact congrArg (· ++ natDecimal t) h1
  · intro heq
    have hdec : natDecimal t1 = natDecimal t2 := by
      have hd := congrArg String.data heq
      simp only [construct_job_name, String.data_append] at hd
      exact String.ext (List.append_cancel_left hd)
    exact hne (natDecimal_inj hdec)

/-- Witness for C7 at timestamps 1700000000 and 1700000001. -/
theorem construct_job_name_spec_witness :
    construct_job_name "speech.mp3" 1700000000 = "speech-1700000000"
    ∧ construct_job_name "speech.mp3" 1700000000
        ≠ construct_job_name "speech.mp3" 1700000001 :=
  ⟨by decide,
   (construct_job_name_spec "speech.mp3" 0 1700000000 1700000001 (by decide)).2.2⟩

/-! ## Configuration, network-call traces and the two commands

The environment is the triple of variables the program reads; the network
effects of a command run are collected into an explicit trace.  A raised
`ValueError` is an `Except.error` that short-circuits before any later
call is recorded, exactly as the Python exception does. -/

/-- The environment variables `cli.py` reads. `none` models an unset
variable; Python's falsy check also rejects a set-but-empty value. -/
structure Env where
  region : Option String
  bucket : Option String
  defaultOutputDir : Option String
deriving DecidableEq

/-- A call to one of the two cloud backends. -/
inductive NetCall where
  | uploadFile (localPath bucket objectKey : String)
  | startJob (jobName mediaFileUri mediaFormat languageCode : String)
  | getJobStatus (jobName : String)
deriving DecidableEq

/-- Embedding of `cli.py::init_clients` (lines 37–46): fails unless a
non-empty `AWS_REGION` is present; performs no network call. -/
def init_clients (env : Env) : Except String Unit :=
  match env.region with
  | none => .error "AWS_REGION must be set in .env file"
  | some r => if r = "" then .error "AWS_REGION must be set in .env file" else .ok ()

/-- Embedding of `cli.py::get_bucket_name` (lines 64–69). -/
def get_bucket_name (env : Env) : Except String String :=
  match env.bucket with
  | none => .error "AWS_BUCKET_NAME must be set in .env file"
  | some b => if b = "" then .error "AWS_BUCKET_NAME must be set in .env file" else .ok b

/-- Embedding of `cli.py::get_default_output_dir` (lines 112–117):
`DEFAULT_OUTPUT_DIR` with the default `./transcripts`. -/
def get_default_output_dir (env : Env) : String :=
  env.defaultOutputDir.getD "./transcripts"

/-- The `upload` command up to and including the start of the transcription
job (`cli.py` lines 156–176): result and the trace of backend calls made.
The order of the steps is the order of the Python statements. -/
def upload_command (env : Env) (input_file : String) (key : Option String)
    (timestamp : Nat) : Except String String × List NetCall :=
  match get_bucket_name env with
  | .error e => (.error e, [])
  | .ok bucket =>
    let object_key := construct_object_key input_file key
    match init_clients env with
    | .error e => (.error e, [])
    | .ok _ =>
      let job_name := construct_job_name object_key timestamp
      (.ok job_name,
       [.uploadFile input_file bucket object_key,
        .startJob job_name ("s3://" ++ bucket ++ "/" ++ object_key)
          (cli_media_format object_key) "en-US"])

/-- The `fetch` command up to its first status query (`cli.py`
lines 201–216). -/
def fetch_command (env : Env) (job_name : String) : Except String Unit × List NetCall :=
  match init_clients env with
  | .error e => (.error e, [])
  | .ok _ => (.ok (), [.getJobStatus job_name])

/-- C8: with the region or the bucket variable absent, `upload` fails with
a configuration error and its backend-call trace is empty, and with the
region absent `fetch` likewise fails before its status query; no upload,
job start, or status fetch is attempted. -/
theorem config_error_before_network (env : Env) (f j : String) (k : Option String)
    (t : Nat) (h : env.region = none ∨ env.bucket = none) :
    ((upload_command env f k t).2 = []
      ∧ (upload_command env f k t).1.isOk = false)
    ∧ (env.region = none →
        (fetch_command env j).2 = [] ∧ (fetch_command env j).1.isOk = false) := by
  constructor
  · rcases hb : env.bucket with _ | b
    · have he : upload_command env f k t
          = (.error "AWS_BUCKET_NAME must be set in .env file", []) := by
        simp [upload_command, get_bucket_name, hb]
      rw [he]
      exact ⟨rfl, rfl⟩
    · have hr : env.region = none := by
        rcases h with h | h
        · exact h
        · rw [hb] at h; cases h
      by_cases hbe : b = ""
      · have he : upload_command env f k t
            = (.error "AWS_BUCKET_NAME must be set in .env file", []) := by
          simp [upload_command, get_bucket_name, hb, hbe]
        rw [he]
        exact ⟨rfl, rfl⟩
      · have he : upload_command env f k t
            = (.error "AWS_REGION must be set in .env file", []) := by
          simp [upload_command, get_bucket_name, hb, hbe, init_clients, hr]
        rw [he]
        exact ⟨rfl, rfl⟩
  · intro hr
    have he : fetch_command env j
        = (.error "AWS_REGION must be set in .env file", []) := by
      simp [fetch_command, init_clients, hr]
    rw [he]
    exact ⟨rfl, rfl⟩

/-- Witness for C8: an environment with neither region nor bucket set. -/
theorem config_error_before_network_witness :
    (upload_command ⟨none, none, none⟩ "speech.mp3" none 1700000000).2 = []
    ∧ (fetch_command ⟨none, none, none⟩ "speech-1700000000").2 = [] := by
  have h := config_error_before_network ⟨none, none, none⟩ "speech.mp3"
    "speech-1700000000" none 1700000000 (Or.inl rfl)
  exact ⟨h.1.1, (h.2 rfl).1⟩

/-! ## Output-path resolution and transcript persistence -/

/-- Embedding of `cli.py::construct_output_path` (lines 58–62); the
filesystem enters only through the `isDir` oracle (`os.path.isdir`). -/
def construct_output_path (isDir : String → Bool) (output_path : String) : String :=
  if isDir output_path then osJoin output_path "transcribed_output.txt"
  else output_path

/-- C9: a caller-supplied target that names an existing directory resolves
to `<target>/transcribed_output.txt` inside it; any other target is
returned verbatim. -/
theorem construct_output_path_spec (isDir : String → Bool) (p : String) :
    (isDir p = true → construct_output_path isDir p = osJoin p "transcribed_output.txt")
    ∧ (isDir p = true → p ≠ "" → p.data.getLast? ≠ some '/' →
        construct_output_path isDir p = p ++ "/" ++ "transcribed_output.txt")
    ∧ (isDir p = false → construct_output_path isDir p = p) := by
  refine ⟨fun h => by simp [construct_output_path, h], fun h hne hsl => ?_,
    fun h => by simp [construct_output_path, h]⟩
  simp only [construct_output_path, h, if_true]
  have hb : ("transcribed_output.txt" : String).data.head? ≠ some '/' := by decide
  simp [osJoin, hne, hsl, hb]

/-- Witness for C9: the directory `out` resolves to
`out/transcribed_output.txt`; the file path `out/result.txt` is kept. -/
theorem construct_output_path_spec_witness :
    construct_output_path (fun p => p = "out") "out" = "out/transcribed_output.txt"
    ∧ construct_output_path (fun p => p = "out") "out/result.txt" = "out/result.txt" := by
  constructor
  · have h := (construct_output_path_spec (fun p => p = "out") "out").2.1
      (by decide) (by decide) (by decide)
    rw [h]; decide
  · exact (construct_output_path_spec (fun p => p = "out") "out/result.txt").2.2 (by decide)

/-- Embedding of `cli.py::save_transcript` (lines 133–145): the path the
transcript is written to, and the text written.  The path is
`os.path.join(output_dir, job_name)` — no `.txt` is appended. -/
def save_transcript (m : Manifest) (output_dir job_name : String) : String × String :=
  (osJoin output_dir job_name, save_transcript_text m)

/-- The file written by `upload --wait` on completion (`cli.py` line 183):
`save_transcript` against the default output directory and the job name. -/
def upload_wait_saved_path (env : Env) (job_name : String) (m : Manifest) : String :=
  (save_transcript m (get_default_output_dir env) job_name).1

/-- The file written by `fetch` without `--output-file` on a completed job
(`cli.py` lines 227–229): the default path `<dir>/<jobName>.txt` is built,
then split back into directory and extension-free stem before calling
`save_transcript`. -/
def fetch_default_saved_path (env : Env) (job_name : String) (m : Manifest) : String :=
  let output_path := osJoin (get_default_output_dir env) (job_name ++ ".txt")
  (save_transcript m (pyDirname output_path) (pySplitext (pyBasename output_path)).1).1

/-- C1 (divergence): for the completed job `speech-1700000000` with the
default output directory, both `upload --wait` and default-output `fetch`
write the transcript to `./transcripts/speech-1700000000` — under the
resolved output directory, but without the `.txt` extension the claim (and
the success message `cli.py` itself prints at line 230, and the comment at
line 142) promises. -/
theorem save_transcript_omits_txt_extension :
    upload_wait_saved_path ⟨some "us-east-1", some "media", none⟩
        "speech-1700000000" ⟨["hello"]⟩
      = "./transcripts/speech-1700000000"
    ∧ fetch_default_saved_path ⟨some "us-east-1", some "media", none⟩
        "speech-1700000000" ⟨["hello"]⟩
      = "./transcripts/speech-1700000000"
    ∧ pyBasename "./transcripts/speech-1700000000" = "speech-1700000000"
    ∧ "speech-1700000000" ≠ "speech-1700000000" ++ ".txt" := by
  refine ⟨by decide, by decide, by decide, by decide⟩
